import Mathlib

set_option autoImplicit false

namespace Bluebook

/-! Shallow embedding of `src/bluebook/lib/person.py` and
`src/bluebook/lib/phonebook.py`. Python strings are `String`; a value that
may be Python `None` is an `Option String` (`none` is `None`). -/

/-- Python string conversion as used by `str.format`: `None` formats as
the string `"None"`, a string formats as itself. -/
def pyFormat : Option String → String
  | none => "None"
  | some s => s

/-- The `Person` record of `person.py`: four stored fields plus the stored
derived `full_name`. -/
structure Person where
  first_name : Option String
  last_name : Option String
  phone : Option String
  address : Option String
  full_name : String
  deriving DecidableEq, Repr

/-- Python `Person.__init__`: stores the four fields and derives
`full_name` by formatting first and last name joined with a single space,
once, at construction time. -/
def Person.init (first_name last_name phone address : Option String) : Person :=
  { first_name := first_name, last_name := last_name, phone := phone,
    address := address,
    full_name := pyFormat first_name ++ " " ++ pyFormat last_name }

/-- A Python dict with string keys, insertion order preserved, keys
unique. -/
abbrev PyDict (α : Type) := List (String × α)

/-- One contact's field mapping as parsed from a file: field names to
string-or-None values. -/
abbrev Record := PyDict (Option String)

/-- Python `d[k]` lookup: value of the binding of `k`, `none` when the key
is absent. -/
def dictFind {α : Type} : PyDict α → String → Option α
  | [], _ => none
  | (k', v) :: d, k => if k' = k then some v else dictFind d k

/-- Python `d.get(k)` on a record: the stored value when the key is
present (it may itself be `None`), and `None` when the key is absent. -/
def dictGet (d : Record) (k : String) : Option String :=
  match dictFind d k with
  | none => none
  | some v => v

/-- Python runtime errors raised by the embedded code. -/
inductive PyError where
  | valueError (msg : String)
  | keyError (key : String)
  | unboundLocal (name : String)
  | parseError
  deriving DecidableEq, Repr

/-- Python `Person.from_dict`: requires keys `first_name` and `last_name`
(`KeyError` when missing, `first_name` looked up first), reads `phone` and
`address` with `.get` (defaulting to `None`), and builds the `Person`
through `Person.__init__`. -/
def Person.from_dict (data : Record) : Except PyError Person :=
  match dictFind data "first_name" with
  | none => .error (.keyError "first_name")
  | some fn =>
    match dictFind data "last_name" with
    | none => .error (.keyError "last_name")
    | some ln => .ok (Person.init fn ln (dictGet data "phone") (dictGet data "address"))

/-- A `Person` object together with its Python object identity: `Person`
defines no `__eq__`, so `==` between two `Person` objects is reference
identity, and `pid` models that identity. Two list entries with the same
`pid` stand for the same object stored twice. -/
structure PObj where
  pid : Nat
  val : Person
  deriving DecidableEq, Repr

/-- The `Phonebook` state: `self.contacts`, an ordered list of objects. -/
abbrev Phonebook := List PObj

/-- Python `Phonebook.add_contact`: appends at the end. -/
def add_contact (contacts : Phonebook) (p : PObj) : Phonebook :=
  contacts ++ [p]

/-- Python `Phonebook.remove_contact`, i.e. `self.contacts.remove(person)`:
removes the first element `==` to `person`; since `Person` defines no
`__eq__`, that is the first occurrence of the very same object. Raises
`ValueError` when no element is that object. -/
def remove_contact : Phonebook → PObj → Except PyError Phonebook
  | [], _ => .error (.valueError "list.remove(x): x not in list")
  | c :: rest, p =>
    if c.pid = p.pid then .ok rest
    else (remove_contact rest p).map (fun r => c :: r)

/-- Python `Phonebook.update_contact`: replaces, in place, the first contact whose
`full_name` equals (string equality) `person.full_name`; raises
`ValueError` when no stored full name matches. -/
def update_contact : Phonebook → PObj → Except PyError Phonebook
  | [], _ => .error (.valueError "Contact not found in the phonebook.")
  | c :: rest, p =>
    if c.val.full_name = p.val.full_name then .ok (p :: rest)
    else (update_contact rest p).map (fun r => c :: r)

/-- Char-list prefix test, helper for Python string containment. -/
def pfx : List Char → List Char → Bool
  | [], _ => true
  | _ :: _, [] => false
  | a :: pat, b :: s => a == b && pfx pat s

/-- Helper for `strContains`: does the pattern occur in the char list? -/
def containsAux : List Char → List Char → Bool
  | [], pat => pat.isEmpty
  | s@(_ :: t), pat => pfx pat s || containsAux t pat

/-- Python `pat in s` for strings: `pat` occurs as a contiguous substring
of `s`; the empty pattern is contained in every string. -/
def strContains (s pat : String) : Bool :=
  containsAux s.data pat.data

/-- Python `s.lower()` (on the ASCII letters the repository's data uses):
lower-cases every character. -/
def pyLower (s : String) : String :=
  ⟨s.data.map Char.toLower⟩

/-- One conjunct `field and query in field.lower()` of the search
condition: a `None` or empty field is falsy and never matches; otherwise
the already lower-cased query must occur in the lower-cased field. -/
def fieldCheck (q : String) : Option String → Bool
  | none => false
  | some s => if s = "" then false else strContains (pyLower s) q

/-- Python `Phonebook.search_contacts`: lower-cases the query once, then keeps, in
order, every contact for which any of `first_name`, `last_name`,
`full_name`, `phone`, `address` is truthy and contains the query after
lower-casing (`full_name` is a string, never `None`). -/
def search_contacts (contacts : Phonebook) (query : String) : Phonebook :=
  contacts.filter fun c =>
    fieldCheck (pyLower query) c.val.first_name ||
      fieldCheck (pyLower query) c.val.last_name ||
      fieldCheck (pyLower query) (some c.val.full_name) ||
      fieldCheck (pyLower query) c.val.phone ||
      fieldCheck (pyLower query) c.val.address

/-- Python `d[k] = v`: replaces the value in place when `k` is already a
key (keeping its position), otherwise appends the binding at the end. -/
def dictInsert {α : Type} : PyDict α → String → α → PyDict α
  | [], k, v => [(k, v)]
  | (k', v') :: d, k, v =>
    if k' = k then (k', v) :: d else (k', v') :: dictInsert d k v

/-- Python `contact.__dict__`: the attribute mapping, in attribute definition
order; `full_name` is always a string. -/
def contactAttrs (c : Person) : Record :=
  [("first_name", c.first_name), ("last_name", c.last_name),
   ("phone", c.phone), ("address", c.address), ("full_name", some c.full_name)]

/-- The dict comprehension of `save_to_file`: one entry per contact, keyed
by `full_name`; a later contact with the same full name overwrites the
earlier one's entry. -/
def serializeData (contacts : Phonebook) : PyDict Record :=
  contacts.foldl (fun d c => dictInsert d c.val.full_name (contactAttrs c.val)) []

/-- The final on-disk content produced by `save_to_file`, abstracting the
external `json.dump` / `yaml.dump` encoders: `text fmt d` is the `fmt`
encoding of the mapping `d`, `empty` is an empty file, `garbage` stands
for bytes no supported parser accepts. -/
inductive FileData where
  | text (file_format : String) (d : PyDict Record)
  | empty
  | garbage
  deriving DecidableEq, Repr

/-- Python `Phonebook.save_to_file`: builds the `full_name` to `__dict__` mapping
and writes it in the requested format; a format other than `json`/`yaml`
raises nothing and writes nothing, leaving the file (already opened for
writing, hence truncated) empty. The result is the final file content. -/
def save_to_file (contacts : Phonebook) (file_format : String) :
    Except PyError FileData :=
  if file_format = "json" then .ok (.text "json" (serializeData contacts))
  else if file_format = "yaml" then .ok (.text "yaml" (serializeData contacts))
  else .ok .empty

/-- The external parsers `json.load` / `yaml.safe_load`, modelled on the
file contents this embedding can produce: content written by the same
format's encoder parses back to the encoded mapping; empty or unparseable
content fails. (The repository always reads with the format it wrote, so
cross-format reads are modelled as parse failures as well.) -/
def parseAs (file_format : String) : FileData → Except PyError (PyDict Record)
  | .text wf d => if file_format = wf then .ok d else .error .parseError
  | _ => .error .parseError

/-- The `for contact_info in data.values()` loop of `load_from_file`:
appends `Person.from_dict(contact_info)` for each top-level value in
order; a `KeyError` from `from_dict` aborts the loop, keeping the contacts
appended so far. `nid` numbers the freshly created objects. -/
def loadLoop (contacts : Phonebook) (records : List Record) (nid : Nat) :
    Phonebook × Option PyError :=
  match records with
  | [] => (contacts, none)
  | r :: rest =>
    match Person.from_dict r with
    | .error e => (contacts, some e)
    | .ok p => loadLoop (contacts ++ [⟨nid, p⟩]) rest (nid + 1)

/-- Python `Phonebook.load_from_file`: parses the file with the requested format's
parser and appends one contact per top-level value (ignoring the top-level
keys); a format other than `json`/`yaml` leaves the local variable `data`
unassigned, so `data.values()` raises `UnboundLocalError` before any
contact is appended. Returns the final contact list together with the
raised error, if any. -/
def load_from_file (contacts : Phonebook) (file_format : String)
    (file : FileData) (nid : Nat) : Phonebook × Option PyError :=
  if file_format = "json" then
    match parseAs "json" file with
    | .error e => (contacts, some e)
    | .ok d => loadLoop contacts (d.map Prod.snd) nid
  else if file_format = "yaml" then
    match parseAs "yaml" file with
    | .error e => (contacts, some e)
    | .ok d => loadLoop contacts (d.map Prod.snd) nid
  else (contacts, some (.unboundLocal "data"))

/-- Spec-side field test, stated from the specification's sentence: an
absent or empty field never matches; otherwise the lower-cased query must
be a substring of the lower-cased field. -/
def specFieldHit (query : String) : Option String → Bool
  | none => false
  | some s => if s = "" then false else strContains (pyLower s) (pyLower query)

/-- Spec-side match predicate, stated from the specification's sentence:
the lower-cased query is a substring of at least one of the lower-cased
`first_name`, `last_name`, `full_name`, `phone`, `address`; absent or
empty fields never produce a match. -/
def specMatch (query : String) (c : Person) : Bool :=
  [c.first_name, c.last_name, some c.full_name, c.phone, c.address].any
    (specFieldHit query)

/-- The contact a well-formed record denotes: required fields read from
the record, optional ones defaulting to `None`. -/
def recordPerson (r : Record) : Person :=
  Person.init (dictGet r "first_name") (dictGet r "last_name")
    (dictGet r "phone") (dictGet r "address")

/-- The objects a fully successful load loop appends: one per record, with
consecutive fresh identities. -/
def loadedObjs : List Record → Nat → List PObj
  | [], _ => []
  | r :: rest, nid => ⟨nid, recordPerson r⟩ :: loadedObjs rest (nid + 1)

/-- A record containing both required keys. -/
def wfRecord (r : Record) : Prop :=
  dictFind r "first_name" ≠ none ∧ dictFind r "last_name" ≠ none

/-! ### C1: removal -/

/-- C1 (counterexample): a phonebook holding one object carrying exactly
the fields of the argument, but a different object: `remove_contact`
raises `ValueError` instead of removing the field-wise equal element, so
removal is not keyed by field-wise equality. -/
theorem remove_fieldwise_equal_raises :
    (⟨0, Person.init (some "John") (some "Doe") (some "555-1111") none⟩ : PObj).val
        = (⟨1, Person.init (some "John") (some "Doe") (some "555-1111") none⟩ : PObj).val ∧
    remove_contact [⟨0, Person.init (some "John") (some "Doe") (some "555-1111") none⟩]
        ⟨1, Person.init (some "John") (some "Doe") (some "555-1111") none⟩
      = .error (.valueError "list.remove(x): x not in list") := by
  refine ⟨rfl, ?_⟩
  simp [remove_contact, Except.map]

/-- C1 (amended): `remove_contact` removes the first occurrence of the
very object passed (reference identity, since `Person` defines no
field-wise equality), shrinking the list by one; when that object is not
an element — even if a field-wise equal contact is present, and always on
an empty phonebook — it raises `ValueError` and leaves the list
unchanged. -/
theorem remove_contact_identity_spec (D pre post : Phonebook) (x c : PObj) :
    ((∀ y ∈ D, y.pid ≠ c.pid) →
      remove_contact D c = .error (.valueError "list.remove(x): x not in list")) ∧
    (x.pid = c.pid → (∀ y ∈ pre, y.pid ≠ c.pid) →
      remove_contact (pre ++ x :: post) c = .ok (pre ++ post) ∧
        (pre ++ post).length + 1 = (pre ++ x :: post).length) := by
  constructor
  · intro h
    induction D with
    | nil => rfl
    | cons a D ih =>
      have ha : a.pid ≠ c.pid := h a (List.mem_cons_self a D)
      have hrest := ih (fun y hy => h y (List.mem_cons_of_mem a hy))
      simp [remove_contact, Except.map, ha, hrest]
  · intro hx hpre
    refine ⟨?_, by simp only [List.length_append, List.length_cons]; omega⟩
    induction pre with
    | nil => simp [remove_contact, hx]
    | cons a pre ih =>
      have ha : a.pid ≠ c.pid := hpre a (List.mem_cons_self a pre)
      have hrest := ih (fun y hy => hpre y (List.mem_cons_of_mem a hy))
      simp [remove_contact, Except.map, ha, hrest]

/-- C1 (witness): on a singleton phonebook, removing the stored object
itself succeeds and empties the book, and removing from an empty
phonebook raises `ValueError`. -/
theorem remove_contact_identity_spec_witness :
    (remove_contact [⟨0, Person.init (some "Jane") (some "Smith") none none⟩]
        ⟨0, Person.init (some "Jane") (some "Smith") none none⟩ = .ok [] ∧
      ([] : Phonebook).length + 1
        = ([⟨0, Person.init (some "Jane") (some "Smith") none none⟩] : Phonebook).length) ∧
    remove_contact [] ⟨0, Person.init (some "Jane") (some "Smith") none none⟩
      = .error (.valueError "list.remove(x): x not in list") := by
  constructor
  · exact (remove_contact_identity_spec [] [] []
        ⟨0, Person.init (some "Jane") (some "Smith") none none⟩
        ⟨0, Person.init (some "Jane") (some "Smith") none none⟩).2 rfl
      (fun y hy => absurd hy (List.not_mem_nil y))
  · exact (remove_contact_identity_spec [] [] []
        ⟨0, Person.init (some "Jane") (some "Smith") none none⟩
        ⟨0, Person.init (some "Jane") (some "Smith") none none⟩).1
      (fun y hy => absurd hy (List.not_mem_nil y))

/-! ### C2: update -/

/-- C2: `update_contact` replaces, in place, the first contact whose full
name equals the argument's, leaving every other element and the length
unchanged; when no stored full name matches, it raises `ValueError` and
leaves the list unchanged. -/
theorem update_contact_spec (D pre post : Phonebook) (x p : PObj) :
    ((∀ y ∈ D, y.val.full_name ≠ p.val.full_name) →
      update_contact D p
        = .error (.valueError "Contact not found in the phonebook.")) ∧
    (x.val.full_name = p.val.full_name →
      (∀ y ∈ pre, y.val.full_name ≠ p.val.full_name) →
      update_contact (pre ++ x :: post) p = .ok (pre ++ p :: post) ∧
        (pre ++ p :: post).length = (pre ++ x :: post).length) := by
  constructor
  · intro h
    induction D with
    | nil => rfl
    | cons a D ih =>
      have ha : a.val.full_name ≠ p.val.full_name := h a (List.mem_cons_self a D)
      have hrest := ih (fun y hy => h y (List.mem_cons_of_mem a hy))
      simp [update_contact, Except.map, ha, hrest]
  · intro hx hpre
    refine ⟨?_, by simp only [List.length_append, List.length_cons]⟩
    induction pre with
    | nil => simp [update_contact, hx]
    | cons a pre ih =>
      have ha : a.val.full_name ≠ p.val.full_name := hpre a (List.mem_cons_self a pre)
      have hrest := ih (fun y hy => hpre y (List.mem_cons_of_mem a hy))
      simp [update_contact, Except.map, ha, hrest]

/-- C2 (witness): updating a two-contact phonebook at the second
contact's full name replaces exactly that entry, and updating when no
full name matches raises `ValueError`. -/
theorem update_contact_spec_witness :
    (update_contact
        [⟨0, Person.init (some "John") (some "Doe") none none⟩,
         ⟨1, Person.init (some "Jane") (some "Smith") (some "555-2222") none⟩]
        ⟨2, Person.init (some "Jane") (some "Smith") (some "999") none⟩
      = .ok [⟨0, Person.init (some "John") (some "Doe") none none⟩,
             ⟨2, Person.init (some "Jane") (some "Smith") (some "999") none⟩] ∧
      ([⟨0, Person.init (some "John") (some "Doe") none none⟩,
        ⟨2, Person.init (some "Jane") (some "Smith") (some "999") none⟩] : Phonebook).length
        = ([⟨0, Person.init (some "John") (some "Doe") none none⟩,
            ⟨1, Person.init (some "Jane") (some "Smith") (some "555-2222") none⟩] : Phonebook).length) ∧
    update_contact [⟨0, Person.init (some "John") (some "Doe") none none⟩]
        ⟨2, Person.init (some "Jane") (some "Smith") (some "999") none⟩
      = .error (.valueError "Contact not found in the phonebook.") := by
  constructor
  · exact (update_contact_spec []
        [⟨0, Person.init (some "John") (some "Doe") none none⟩] []
        ⟨1, Person.init (some "Jane") (some "Smith") (some "555-2222") none⟩
        ⟨2, Person.init (some "Jane") (some "Smith") (some "999") none⟩).2
      (by decide) (by decide)
  · exact (update_contact_spec
        [⟨0, Person.init (some "John") (some "Doe") none none⟩] [] []
        ⟨0, Person.init (some "John") (some "Doe") none none⟩
        ⟨2, Person.init (some "Jane") (some "Smith") (some "999") none⟩).1
      (by decide)

/-! ### C5, C6: search -/

theorem specFieldHit_eq (q : String) (f : Option String) :
    specFieldHit q f = fieldCheck (pyLower q) f := by
  cases f <;> rfl

/-- C5: `search_contacts` returns exactly the contacts satisfying the
specification's case-insensitive substring predicate (`specMatch`), in
original phonebook order; being a total filter, it never raises — absent
and empty fields are skipped before any string operation — and it returns
`[]` when nothing matches. -/
theorem search_contacts_eq_spec_filter (D : Phonebook) (q : String) :
    search_contacts D q = D.filter (fun c => specMatch q c.val) := by
  unfold search_contacts
  apply List.filter_congr
  intro c _
  simp [specMatch, List.any_cons, List.any_nil, specFieldHit_eq,
    Bool.or_assoc, Bool.or_false]

theorem containsAux_nil (l : List Char) : containsAux l [] = true := by
  cases l <;> simp [containsAux, pfx]

theorem strContains_empty (s : String) : strContains s "" = true :=
  containsAux_nil s.data

theorem pyLower_empty : pyLower "" = "" := rfl

theorem init_full_name_ne (fn ln ph ad : Option String) :
    (Person.init fn ln ph ad).full_name ≠ "" := by
  intro h
  have h2 := congrArg String.length h
  simp only [Person.init] at h2
  rw [String.length_append, String.length_append] at h2
  have hsp : (" " : String).length = 1 := rfl
  have hem : ("" : String).length = 0 := rfl
  omega

/-- C6: on any phonebook whose contacts were all produced by the `Person`
constructor — including contacts whose four fields are all empty strings
or all `None` — searching with the empty query returns every contact in
order: the stored `full_name` always contains the space separator, so it
is truthy and contains the (lower-cased) empty query as a substring. -/
theorem search_empty_query_returns_all (D : Phonebook)
    (hD : ∀ c ∈ D, ∃ fn ln ph ad, c.val = Person.init fn ln ph ad) :
    search_contacts D "" = D := by
  unfold search_contacts
  rw [List.filter_eq_self]
  intro c hc
  obtain ⟨fn, ln, ph, ad, hv⟩ := hD c hc
  have hne : c.val.full_name ≠ "" := by
    rw [hv]; exact init_full_name_ne fn ln ph ad
  have h1 : fieldCheck (pyLower "") (some c.val.full_name) = true := by
    simp [fieldCheck, hne, pyLower_empty, strContains_empty]
  simp [h1]

/-- C6 (witness): a phonebook holding an all-empty-fields contact and an
all-`None`-fields contact; the empty query returns both, in order. -/
theorem search_empty_query_returns_all_witness :
    search_contacts [⟨0, Person.init (some "") (some "") none none⟩,
        ⟨1, Person.init none none none none⟩] ""
      = [⟨0, Person.init (some "") (some "") none none⟩,
         ⟨1, Person.init none none none none⟩] := by
  apply search_empty_query_returns_all
  intro c hc
  simp only [List.mem_cons, List.not_mem_nil, or_false] at hc
  rcases hc with h | h
  · exact h ▸ ⟨some "", some "", none, none, rfl⟩
  · exact h ▸ ⟨none, none, none, none, rfl⟩

/-! ### C7: from_dict -/

/-- C7: `Person.from_dict` fails (with `KeyError`, the spec's
`MissingFieldError`) exactly when the record lacks the key `first_name`
or the key `last_name` — the first missing required key is the one
reported — and otherwise returns the contact whose names are the record's
values and whose `phone`/`address` are read with `.get`, defaulting to
`None` when absent. -/
theorem from_dict_spec (m : Record) :
    ((∃ e, Person.from_dict m = .error e) ↔
      (dictFind m "first_name" = none ∨ dictFind m "last_name" = none)) ∧
    (dictFind m "first_name" = none →
      Person.from_dict m = .error (.keyError "first_name")) ∧
    (∀ fn, dictFind m "first_name" = some fn → dictFind m "last_name" = none →
      Person.from_dict m = .error (.keyError "last_name")) ∧
    (∀ fn ln, dictFind m "first_name" = some fn → dictFind m "last_name" = some ln →
      Person.from_dict m
        = .ok (Person.init fn ln (dictGet m "phone") (dictGet m "address"))) := by
  refine ⟨⟨?_, ?_⟩, ?_, ?_, ?_⟩
  · rintro ⟨e, he⟩
    by_contra hcon
    push_neg at hcon
    obtain ⟨hf, hl⟩ := hcon
    obtain ⟨fn, hfn⟩ := Option.ne_none_iff_exists'.mp hf
    obtain ⟨ln, hln⟩ := Option.ne_none_iff_exists'.mp hl
    simp [Person.from_dict, hfn, hln] at he
  · intro h
    rcases h with h | h
    · exact ⟨.keyError "first_name", by simp [Person.from_dict, h]⟩
    · cases hfn : dictFind m "first_name" with
      | none => exact ⟨.keyError "first_name", by simp [Person.from_dict, hfn]⟩
      | some fn => exact ⟨.keyError "last_name", by simp [Person.from_dict, hfn, h]⟩
  · intro h
    simp [Person.from_dict, h]
  · intro fn hfn hln
    simp [Person.from_dict, hfn, hln]
  · intro fn ln hfn hln
    simp [Person.from_dict, hfn, hln]

/-- C7 (witness): a record with both required keys and a phone yields the
contact with the default `None` address; a record lacking `first_name`
yields `KeyError` on `first_name`. -/
theorem from_dict_spec_witness :
    Person.from_dict [("first_name", some "A"), ("last_name", some "B"),
        ("phone", some "P")]
      = .ok (Person.init (some "A") (some "B") (some "P") none) ∧
    Person.from_dict [("last_name", some "B")]
      = .error (.keyError "first_name") := by
  constructor
  · exact (from_dict_spec [("first_name", some "A"), ("last_name", some "B"),
        ("phone", some "P")]).2.2.2 (some "A") (some "B") rfl rfl
  · exact (from_dict_spec [("last_name", some "B")]).2.1 rfl

/-! ### C10: the derived full name -/

/-- C10: a constructed contact's `full_name` is its first and last name
joined by a single space — hence it always contains the space separator,
even when both names are empty or `None` — and `from_dict` recomputes
`full_name` from the record's `first_name`/`last_name` values, ignoring
any `full_name` binding stored in the record. -/
theorem full_name_invariant (fn ln : String) (fnv lnv ph ad : Option String)
    (m : Record) (v : Option String) (p : Person) :
    (Person.init (some fn) (some ln) ph ad).full_name = fn ++ " " ++ ln ∧
    ' ' ∈ (Person.init fnv lnv ph ad).full_name.data ∧
    Person.from_dict (("full_name", v) :: m) = Person.from_dict m ∧
    (Person.from_dict m = .ok p →
      p.full_name = pyFormat (dictGet m "first_name") ++ " "
        ++ pyFormat (dictGet m "last_name")) := by
  refine ⟨rfl, ?_, ?_, ?_⟩
  · show ' ' ∈ (pyFormat fnv ++ " " ++ pyFormat lnv).data
    rw [String.data_append, String.data_append]
    rw [show (" " : String).data = [' '] from rfl]
    simp
  · have h1 : dictFind (("full_name", v) :: m) "first_name"
        = dictFind m "first_name" := by simp [dictFind]
    have h2 : dictFind (("full_name", v) :: m) "last_name"
        = dictFind m "last_name" := by simp [dictFind]
    have h3 : dictGet (("full_name", v) :: m) "phone" = dictGet m "phone" := by
      simp [dictGet, dictFind]
    have h4 : dictGet (("full_name", v) :: m) "address" = dictGet m "address" := by
      simp [dictGet, dictFind]
    unfold Person.from_dict
    rw [h1, h2, h3, h4]
  · intro hok
    cases hfn : dictFind m "first_name" with
    | none => simp [Person.from_dict, hfn] at hok
    | some fn' =>
      cases hln : dictFind m "last_name" with
      | none => simp [Person.from_dict, hfn, hln] at hok
      | some ln' =>
        simp [Person.from_dict, hfn, hln] at hok
        rw [← hok]
        simp [Person.init, dictGet, hfn, hln]

/-- C10 (witness): two empty names still produce the single-space
`full_name`; a stored `full_name` of `"ZZZ"` is ignored by `from_dict`;
and the loaded contact's `full_name` is recomputed from the record. -/
theorem full_name_invariant_witness :
    (Person.init (some "") (some "") none none).full_name = "" ++ " " ++ "" ∧
    Person.from_dict [("full_name", some "ZZZ"), ("first_name", some "Sam"),
        ("last_name", some "Lee")]
      = Person.from_dict [("first_name", some "Sam"), ("last_name", some "Lee")] ∧
    (Person.init (some "Sam") (some "Lee") none none).full_name
      = pyFormat (dictGet [("first_name", some "Sam"), ("last_name", some "Lee")]
            "first_name") ++ " "
        ++ pyFormat (dictGet [("first_name", some "Sam"), ("last_name", some "Lee")]
            "last_name") := by
  refine ⟨(full_name_invariant "" "" none none none none [] none
      (Person.init none none none none)).1, ?_, ?_⟩
  · exact (full_name_invariant "" "" none none none none
      [("first_name", some "Sam"), ("last_name", some "Lee")] (some "ZZZ")
      (Person.init none none none none)).2.2.1
  · exact (full_name_invariant "" "" none none none none
      [("first_name", some "Sam"), ("last_name", some "Lee")] none
      (Person.init (some "Sam") (some "Lee") none none)).2.2.2 rfl

/-! ### C4: the serialized mapping -/

theorem dictFind_dictInsert_self {α : Type} (d : PyDict α) (k : String) (v : α) :
    dictFind (dictInsert d k v) k = some v := by
  induction d with
  | nil => simp [dictInsert, dictFind]
  | cons kv d ih =>
    obtain ⟨k', v'⟩ := kv
    by_cases h : k' = k
    · simp [dictInsert, dictFind, h]
    · simp [dictInsert, dictFind, h, ih]

theorem dictFind_dictInsert_ne {α : Type} (d : PyDict α) (k k2 : String) (v : α)
    (h : k2 ≠ k) : dictFind (dictInsert d k v) k2 = dictFind d k2 := by
  induction d with
  | nil => simp [dictInsert, dictFind, Ne.symm h]
  | cons kv d ih =>
    obtain ⟨k', v'⟩ := kv
    by_cases h1 : k' = k
    · subst h1
      simp [dictInsert, dictFind, Ne.symm h]
    · by_cases h2 : k' = k2 <;> simp [dictInsert, dictFind, h1, h2, h, ih]

theorem keys_dictInsert {α : Type} (d : PyDict α) (k : String) (v : α) :
    (dictInsert d k v).map Prod.fst
      = if k ∈ d.map Prod.fst then d.map Prod.fst
        else d.map Prod.fst ++ [k] := by
  induction d with
  | nil => simp [dictInsert]
  | cons kv d ih =>
    obtain ⟨k', v'⟩ := kv
    by_cases h : k' = k
    · subst h
      simp [dictInsert]
    · by_cases h2 : k ∈ d.map Prod.fst <;>
        simp [dictInsert, h, h2, Ne.symm h, ih]

theorem nodup_keys_dictInsert {α : Type} (d : PyDict α) (k : String) (v : α)
    (h : (d.map Prod.fst).Nodup) : ((dictInsert d k v).map Prod.fst).Nodup := by
  rw [keys_dictInsert]
  by_cases h2 : k ∈ d.map Prod.fst
  · simpa [h2]
  · simp [h2, List.nodup_append, h]

theorem getLast?_of_ne_nil {α : Type} (a : α) (l : List α) (h : l ≠ []) :
    (a :: l).getLast? = l.getLast? := by
  cases l with
  | nil => exact absurd rfl h
  | cons b l => exact List.getLast?_cons_cons

theorem serialize_foldl_find (D : Phonebook) (acc : PyDict Record) (k : String) :
    dictFind
        (D.foldl (fun d c => dictInsert d c.val.full_name (contactAttrs c.val)) acc) k
      = ((D.filter (fun c => decide (c.val.full_name = k))).getLast?).elim
          (dictFind acc k) (fun c => some (contactAttrs c.val)) := by
  induction D generalizing acc with
  | nil => simp
  | cons c D ih =>
    rw [List.foldl_cons, ih]
    cases hl : (D.filter (fun c => decide (c.val.full_name = k))).getLast? with
    | some c' =>
      have hne : D.filter (fun c => decide (c.val.full_name = k)) ≠ [] := by
        intro hnil
        rw [hnil] at hl
        cases hl
      by_cases hc : c.val.full_name = k
      · rw [List.filter_cons, if_pos (by simpa using hc),
          getLast?_of_ne_nil _ _ hne, hl]
        rfl
      · rw [List.filter_cons, if_neg (by simpa using hc), hl]
        rfl
    | none =>
      have hnil := List.getLast?_eq_none_iff.mp hl
      by_cases hc : c.val.full_name = k
      · rw [List.filter_cons, if_pos (by simpa using hc), hnil,
          List.getLast?_singleton]
        subst hc
        simp [dictFind_dictInsert_self]
      · rw [List.filter_cons, if_neg (by simpa using hc), hl]
        simp [dictFind_dictInsert_ne _ _ _ _ (fun hh => hc hh.symm)]

theorem serialize_foldl_nodup (D : Phonebook) (acc : PyDict Record)
    (h : (acc.map Prod.fst).Nodup) :
    ((D.foldl (fun d c => dictInsert d c.val.full_name (contactAttrs c.val))
        acc).map Prod.fst).Nodup := by
  induction D generalizing acc with
  | nil => simpa using h
  | cons c D ih => exact ih _ (nodup_keys_dictInsert _ _ _ h)

theorem filter_getLast?_isSome {α : Type} (l : List α) (p : α → Bool) :
    ((l.filter p).getLast?).isSome ↔ ∃ a ∈ l, p a := by
  constructor
  · intro h
    obtain ⟨a, ha⟩ := Option.isSome_iff_exists.mp h
    have hmem := List.mem_filter.mp (List.mem_of_getLast?_eq_some ha)
    exact ⟨a, hmem.1, hmem.2⟩
  · rintro ⟨a, ha, hpa⟩
    have hne : l.filter p ≠ [] := by
      intro hnil
      have := List.filter_eq_nil_iff.mp hnil a ha
      simp [hpa] at this
    rw [List.getLast?_isSome]
    exact hne

/-- C4: the mapping built by `save_to_file` has pairwise distinct keys;
its keys are exactly the stored contacts' full names; the entry at a key
is the attribute mapping (`first_name`, `last_name`, `phone`, `address`,
`full_name`) of the last contact, in iteration order, bearing that full
name; and building and writing it raises no error for either supported
format. -/
theorem serializeData_spec (D : Phonebook) (k : String) (c : PObj) :
    ((serializeData D).map Prod.fst).Nodup ∧
    ((dictFind (serializeData D) k).isSome
      ↔ k ∈ D.map (fun c => c.val.full_name)) ∧
    ((D.filter (fun c => decide (c.val.full_name = k))).getLast? = some c →
      dictFind (serializeData D) k = some (contactAttrs c.val)) ∧
    save_to_file D "json" = .ok (.text "json" (serializeData D)) ∧
    save_to_file D "yaml" = .ok (.text "yaml" (serializeData D)) := by
  refine ⟨serialize_foldl_nodup D [] (by simp), ?_, ?_, by simp [save_to_file],
    by simp [save_to_file]⟩
  · rw [serializeData, serialize_foldl_find]
    cases hl : (D.filter (fun c => decide (c.val.full_name = k))).getLast? with
    | some c' =>
      have hex : ∃ a ∈ D, decide (a.val.full_name = k) = true :=
        (filter_getLast?_isSome D (fun c => decide (c.val.full_name = k))).mp
          (by rw [hl]; rfl)
      obtain ⟨a, ha, hpa⟩ := hex
      simp only [Option.elim, Option.isSome_some, true_iff]
      exact List.mem_map.mpr ⟨a, ha, of_decide_eq_true hpa⟩
    | none =>
      simp only [Option.elim, dictFind, Option.isSome_none, Bool.false_eq_true,
        false_iff]
      intro hmem
      obtain ⟨a, ha, hfa⟩ := List.mem_map.mp hmem
      have hex : ∃ b ∈ D, decide (b.val.full_name = k) = true :=
        ⟨a, ha, decide_eq_true hfa⟩
      have hsome :=
        (filter_getLast?_isSome D (fun c => decide (c.val.full_name = k))).mpr hex
      rw [hl] at hsome
      cases hsome
  · intro hl
    rw [serializeData, serialize_foldl_find, hl]
    rfl

/-- C4 (witness): serializing two contacts both named "Sam Lee" yields a
mapping with distinct keys whose single "Sam Lee" entry carries the
second contact's attributes, and no error. -/
theorem serializeData_spec_witness :
    ((serializeData [⟨0, Person.init (some "Sam") (some "Lee") (some "111") none⟩,
        ⟨1, Person.init (some "Sam") (some "Lee") (some "222") none⟩]).map
      Prod.fst).Nodup ∧
    dictFind (serializeData [⟨0, Person.init (some "Sam") (some "Lee") (some "111") none⟩,
        ⟨1, Person.init (some "Sam") (some "Lee") (some "222") none⟩]) "Sam Lee"
      = some (contactAttrs (Person.init (some "Sam") (some "Lee") (some "222") none)) := by
  have h := serializeData_spec
    [⟨0, Person.init (some "Sam") (some "Lee") (some "111") none⟩,
     ⟨1, Person.init (some "Sam") (some "Lee") (some "222") none⟩] "Sam Lee"
    ⟨1, Person.init (some "Sam") (some "Lee") (some "222") none⟩
  exact ⟨h.1, h.2.2.1 (by decide)⟩

/-! ### C8: loading appends -/

theorem from_dict_wf (r : Record) (h : wfRecord r) :
    Person.from_dict r = .ok (recordPerson r) := by
  obtain ⟨fn, hfn⟩ := Option.ne_none_iff_exists'.mp h.1
  obtain ⟨ln, hln⟩ := Option.ne_none_iff_exists'.mp h.2
  simp [Person.from_dict, recordPerson, dictGet, hfn, hln]

theorem loadLoop_all_ok (records : List Record) (contacts : Phonebook) (nid : Nat)
    (h : ∀ r ∈ records, wfRecord r) :
    loadLoop contacts records nid = (contacts ++ loadedObjs records nid, none) := by
  revert h
  induction records generalizing contacts nid with
  | nil =>
    intro h
    simp [loadLoop, loadedObjs]
  | cons r rs ih =>
    intro h
    have hok := from_dict_wf r (h r (List.mem_cons_self r rs))
    simp only [loadLoop, hok]
    rw [ih _ _ (fun r' hr' => h r' (List.mem_cons_of_mem r hr'))]
    simp [loadedObjs, List.append_assoc]

theorem loadedObjs_length (records : List Record) (nid : Nat) :
    (loadedObjs records nid).length = records.length := by
  induction records generalizing nid with
  | nil => rfl
  | cons r rs ih => simp [loadedObjs, ih]

theorem loadedObjs_map_val (records : List Record) (nid : Nat) :
    (loadedObjs records nid).map (fun c => c.val) = records.map recordPerson := by
  induction records generalizing nid with
  | nil => rfl
  | cons r rs ih => simp [loadedObjs, ih]

/-- C8: loading a supported-format file holding the mapping `d` into a
phonebook appends, after the untouched existing contacts (which keep their
positions), one freshly constructed contact per top-level value of `d` —
the top-level keys are ignored — so the length grows by exactly the
number of entries, and no error is raised when every value carries the
required keys. -/
theorem load_from_file_appends (D : Phonebook) (fmt : String) (d : PyDict Record)
    (nid : Nat) (hf : fmt = "json" ∨ fmt = "yaml")
    (hw : ∀ kv ∈ d, wfRecord kv.2) :
    load_from_file D fmt (.text fmt d) nid
        = (D ++ loadedObjs (d.map Prod.snd) nid, none) ∧
    (D ++ loadedObjs (d.map Prod.snd) nid).length = D.length + d.length ∧
    (loadedObjs (d.map Prod.snd) nid).map (fun c => c.val)
      = d.map (fun kv => recordPerson kv.2) := by
  have hwf : ∀ r ∈ d.map Prod.snd, wfRecord r := by
    intro r hr
    obtain ⟨kv, hkv, hkv2⟩ := List.mem_map.mp hr
    exact hkv2 ▸ hw kv hkv
  refine ⟨?_, ?_, ?_⟩
  · rcases hf with h | h <;> subst h <;>
      simp [load_from_file, parseAs, loadLoop_all_ok _ _ _ hwf]
  · simp [List.length_append, loadedObjs_length]
  · rw [loadedObjs_map_val, List.map_map]
    rfl

/-- C8 (witness): loading a two-entry mapping into a one-contact
phonebook keeps the existing contact first and appends the two loaded
contacts, with no error. -/
theorem load_from_file_appends_witness :
    load_from_file [⟨0, Person.init (some "Old") (some "Guy") none none⟩] "yaml"
        (.text "yaml"
          [("a", [("first_name", some "John"), ("last_name", some "Doe")]),
           ("b", [("first_name", some "Jane"), ("last_name", some "Smith"),
             ("phone", some "555")])]) 1
      = ([⟨0, Person.init (some "Old") (some "Guy") none none⟩]
          ++ loadedObjs
              [[("first_name", some "John"), ("last_name", some "Doe")],
               [("first_name", some "Jane"), ("last_name", some "Smith"),
                ("phone", some "555")]] 1, none) ∧
    (([⟨0, Person.init (some "Old") (some "Guy") none none⟩] : Phonebook)
        ++ loadedObjs
            [[("first_name", some "John"), ("last_name", some "Doe")],
             [("first_name", some "Jane"), ("last_name", some "Smith"),
              ("phone", some "555")]] 1).length = 1 + 2 := by
  have h := load_from_file_appends
    [⟨0, Person.init (some "Old") (some "Guy") none none⟩] "yaml"
    [("a", [("first_name", some "John"), ("last_name", some "Doe")]),
     ("b", [("first_name", some "Jane"), ("last_name", some "Smith"),
       ("phone", some "555")])] 1 (Or.inr rfl)
    (by
      intro kv hkv
      simp only [List.mem_cons, List.not_mem_nil, or_false] at hkv
      rcases hkv with h | h <;> subst h <;> exact ⟨by decide, by decide⟩)
  exact ⟨h.1, h.2.1⟩

/-! ### C3: save/load round trip -/

theorem dictInsert_not_mem {α : Type} (d : PyDict α) (k : String) (v : α)
    (h : k ∉ d.map Prod.fst) : dictInsert d k v = d ++ [(k, v)] := by
  induction d with
  | nil => rfl
  | cons kv d ih =>
    obtain ⟨k', v'⟩ := kv
    simp only [List.map_cons, List.mem_cons, not_or] at h
    simp [dictInsert, Ne.symm h.1, ih h.2]

theorem serialize_foldl_fresh (D : Phonebook) (acc : PyDict Record)
    (hfresh : ∀ c ∈ D, c.val.full_name ∉ acc.map Prod.fst)
    (hnd : (D.map (fun c => c.val.full_name)).Nodup) :
    D.foldl (fun d c => dictInsert d c.val.full_name (contactAttrs c.val)) acc
      = acc ++ D.map (fun c => (c.val.full_name, contactAttrs c.val)) := by
  revert hfresh hnd
  induction D generalizing acc with
  | nil =>
    intro _ _
    simp
  | cons c D ih =>
    intro hfresh hnd
    have hnotin : c.val.full_name ∉ acc.map Prod.fst :=
      hfresh c (List.mem_cons_self c D)
    have hnd2 : c.val.full_name ∉ D.map (fun c => c.val.full_name) ∧
        (D.map (fun c => c.val.full_name)).Nodup := by
      rw [List.map_cons, List.nodup_cons] at hnd
      exact hnd
    rw [List.foldl_cons, dictInsert_not_mem acc _ _ hnotin, ih _ ?fresh ?nd]
    case fresh =>
      intro c' hc'
      simp only [List.map_append, List.mem_append, not_or]
      refine ⟨hfresh c' (List.mem_cons_of_mem c hc'), ?_⟩
      have hne : c'.val.full_name ≠ c.val.full_name := by
        intro he
        exact hnd2.1 (he ▸ List.mem_map_of_mem (fun x => x.val.full_name) hc')
      simp [hne]
    case nd => simpa using hnd2.2
    simp

theorem serializeData_nodup_eq (D : Phonebook)
    (h : (D.map (fun c => c.val.full_name)).Nodup) :
    serializeData D = D.map (fun c => (c.val.full_name, contactAttrs c.val)) := by
  rw [serializeData, serialize_foldl_fresh D [] (by simp) h]
  rfl

/-- C3: for a phonebook whose contacts bear pairwise distinct full names,
saving in either supported format and loading the file back into an empty
phonebook succeeds and reproduces, in order, every contact's four data
fields (`first_name`, `last_name`, `phone`, `address`). -/
theorem save_load_roundtrip (D : Phonebook) (fmt : String) (nid : Nat)
    (hf : fmt = "json" ∨ fmt = "yaml")
    (hnd : (D.map (fun c => c.val.full_name)).Nodup) :
    ∃ f L, save_to_file D fmt = .ok f ∧
      load_from_file [] fmt f nid = (L, none) ∧
      L.map (fun c => (c.val.first_name, c.val.last_name, c.val.phone, c.val.address))
        = D.map (fun c =>
            (c.val.first_name, c.val.last_name, c.val.phone, c.val.address)) := by
  have hvals : (serializeData D).map Prod.snd
      = D.map (fun c => contactAttrs c.val) := by
    rw [serializeData_nodup_eq D hnd, List.map_map]
    rfl
  have hwf : ∀ r ∈ (serializeData D).map Prod.snd, wfRecord r := by
    rw [hvals]
    intro r hr
    obtain ⟨c, hc, hrfl⟩ := List.mem_map.mp hr
    subst hrfl
    exact ⟨by simp [contactAttrs, dictFind], by simp [contactAttrs, dictFind]⟩
  refine ⟨.text fmt (serializeData D),
    loadedObjs ((serializeData D).map Prod.snd) nid, ?_, ?_, ?_⟩
  · rcases hf with h | h <;> subst h <;> simp [save_to_file]
  · rcases hf with h | h <;> subst h <;>
      simp [load_from_file, parseAs, loadLoop_all_ok _ _ _ hwf]
  · rw [show (fun (c : PObj) =>
          (c.val.first_name, c.val.last_name, c.val.phone, c.val.address))
        = ((fun p : Person => (p.first_name, p.last_name, p.phone, p.address))
            ∘ (fun c : PObj => c.val)) from rfl, ← List.map_map,
      loadedObjs_map_val, hvals, List.map_map, List.map_map]
    rfl

/-- C3 (witness): a two-contact phonebook with distinct full names
round-trips through the JSON format. -/
theorem save_load_roundtrip_witness :
    ∃ (f : FileData) (L : Phonebook),
      save_to_file [⟨0, Person.init (some "John") (some "Doe") (some "555") none⟩,
          ⟨1, Person.init (some "Jane") (some "Smith") none (some "1 Oak St")⟩]
        "json" = .ok f ∧
      load_from_file [] "json" f 0 = (L, none) ∧
      L.map (fun c =>
          (c.val.first_name, c.val.last_name, c.val.phone, c.val.address))
        = ([⟨0, Person.init (some "John") (some "Doe") (some "555") none⟩,
            ⟨1, Person.init (some "Jane") (some "Smith") none
              (some "1 Oak St")⟩] : Phonebook).map (fun c =>
          (c.val.first_name, c.val.last_name, c.val.phone, c.val.address)) :=
  save_load_roundtrip
    [⟨0, Person.init (some "John") (some "Doe") (some "555") none⟩,
     ⟨1, Person.init (some "Jane") (some "Smith") none (some "1 Oak St")⟩]
    "json" 0 (Or.inl rfl) (by decide)

/-! ### C9: unsupported formats and malformed input -/

/-- C9 (counterexample): serializing with the unsupported format `"xml"`
does not fail: `save_to_file` raises no error and merely leaves the
opened file empty, so serialization does not fail with a format error on
an unsupported format identifier. -/
theorem save_unsupported_format_no_error :
    save_to_file [⟨0, Person.init (some "John") (some "Doe") none none⟩] "xml"
      = .ok FileData.empty := by
  simp [save_to_file]

/-- C9 (amended): for a format identifier other than the two supported
ones, `save_to_file` does not fail — it writes nothing, leaving the file
empty — while `load_from_file` fails (with `UnboundLocalError` on the
never-assigned `data` variable, not a format error) and leaves the
phonebook unchanged; loading input that the requested supported format
cannot parse fails with the parser's error, also leaving the phonebook
unchanged. -/
theorem unsupported_format_spec (D D2 : Phonebook) (fmt fmt2 : String)
    (file : FileData) (nid : Nat) :
    (fmt ≠ "json" → fmt ≠ "yaml" →
      save_to_file D fmt = .ok .empty ∧
      load_from_file D fmt file nid = (D, some (.unboundLocal "data"))) ∧
    ((fmt2 = "json" ∨ fmt2 = "yaml") →
      load_from_file D2 fmt2 .garbage nid = (D2, some .parseError)) := by
  constructor
  · intro h1 h2
    constructor
    · simp [save_to_file, h1, h2]
    · simp [load_from_file, h1, h2]
  · intro h
    rcases h with h | h <;> subst h <;> simp [load_from_file, parseAs]

/-- C9 (witness): with the unsupported format `"csv"`, saving succeeds
with an empty file and loading fails leaving the phonebook unchanged;
loading unparseable bytes as JSON fails leaving the phonebook
unchanged. -/
theorem unsupported_format_spec_witness :
    (save_to_file [⟨0, Person.init (some "A") (some "B") none none⟩] "csv"
        = .ok .empty ∧
      load_from_file [⟨0, Person.init (some "A") (some "B") none none⟩] "csv"
          .garbage 3
        = ([⟨0, Person.init (some "A") (some "B") none none⟩],
            some (.unboundLocal "data"))) ∧
    load_from_file [⟨0, Person.init (some "A") (some "B") none none⟩] "json"
        .garbage 3
      = ([⟨0, Person.init (some "A") (some "B") none none⟩],
          some .parseError) := by
  constructor
  · exact (unsupported_format_spec
      [⟨0, Person.init (some "A") (some "B") none none⟩]
      [⟨0, Person.init (some "A") (some "B") none none⟩] "csv" "json"
      .garbage 3).1 (by decide) (by decide)
  · exact (unsupported_format_spec
      [⟨0, Person.init (some "A") (some "B") none none⟩]
      [⟨0, Person.init (some "A") (some "B") none none⟩] "csv" "json"
      .garbage 3).2 (Or.inl rfl)

end Bluebook
